import Mathlib

/-
Verification of the conversation-lifecycle core of a Telegram GPT bot
(src/chat.py and src/bot.py) against its natural-language specification.
The Python code is shallowly embedded: the mutable chat state is passed
explicitly, asyncio timer tasks are modelled by an explicit timer world,
the streaming generator is modelled as the finite list of snapshots it
yields together with its terminal outcome, and the per-chat serializer of
bot.py is modelled as a small nondeterministic scheduler.
-/

namespace MrGpt

/-- Role of a chat message. Modelled from the spec: models.py is not among
the sources; spec section 3 fixes roles as system, user, assistant. -/
inductive Role where
  | system
  | user
  | assistant
deriving DecidableEq

/-- Modelled from the spec: a chat message with id, role and textual content
(models.py is not among the sources; spec section 3 fixes this shape, the
timestamp plays no role in any claim). -/
structure Message where
  id : Nat
  role : Role
  content : String
deriving DecidableEq

/-- Modelled from the spec: a conversation with its id, title and ordered
message list (models.py is not among the sources; spec section 3). -/
structure Conversation where
  id : Nat
  title : String
  messages : List Message
deriving DecidableEq

/-- Modelled from the spec: `last_message` is the last element of the message
sequence, or none (spec section 3). -/
def Conversation.last_message (c : Conversation) : Option Message :=
  c.messages.getLast?

/-- A conversation mode, chat.py lines 14-18. -/
structure ConversationMode where
  title : String
  prompt : String
  id : String
deriving DecidableEq

/-- Lookup in a Python dict modelled as an association list (first match). -/
def dictGet (l : List (String × ConversationMode)) (k : String) :
    Option ConversationMode :=
  match l with
  | [] => none
  | p :: rest => if p.1 = k then some p.2 else dictGet rest k

/-- Python dict assignment `d[k] = v`: replace in place if the key is
present, append otherwise. -/
def dictInsert (l : List (String × ConversationMode)) (k : String)
    (v : ConversationMode) : List (String × ConversationMode) :=
  match l with
  | [] => [(k, v)]
  | p :: rest => if p.1 = k then (k, v) :: rest else p :: dictInsert rest k v

/-- Python dict deletion `del d[k]`. -/
def dictDelete (l : List (String × ConversationMode)) (k : String) :
    List (String × ConversationMode) :=
  l.filter (fun p => decide (p.1 ≠ k))

/-- The persisted per-chat data relevant to modes, chat.py lines 20-23
(the conversations collection is carried separately where needed). -/
structure ChatData where
  modes : List (String × ConversationMode)
  current_mode_id : Option String
deriving DecidableEq

/-- ChatContext.current_mode, chat.py lines 51-56: a falsy id (absent or
empty string) yields none, otherwise the dict lookup, which may miss. -/
def current_mode (d : ChatData) : Option ConversationMode :=
  match d.current_mode_id with
  | none => none
  | some i => if i = "" then none else dictGet d.modes i

/-- ChatContext.add_mode, chat.py lines 63-66: store under the mode's id. -/
def add_mode (d : ChatData) (m : ConversationMode) : ChatData :=
  { d with modes := dictInsert d.modes m.id m }

/-- ChatContext.set_current_mode, chat.py lines 68-69. -/
def set_current_mode (d : ChatData) (m : Option ConversationMode) : ChatData :=
  { d with current_mode_id := m.map ConversationMode.id }

/-- ChatManager.delete_mode, chat.py lines 330-339: look the mode up; on a
miss send "Invalid mode." and change nothing; otherwise delete the dict
entry keyed by the looked-up mode's id and edit the menu message. The second
component is the user-visible text produced. -/
def delete_mode (d : ChatData) (id : String) : ChatData × String :=
  match dictGet d.modes id with
  | none => (d, "Invalid mode.")
  | some mode =>
      ({ d with modes := dictDelete d.modes mode.id },
       "Mode \"" ++ mode.title ++ "\" deleted.")

/-- The mode-editing scratch fields of ChatState, chat.py lines 30-31. -/
structure ModeScratch where
  new_mode_title : Option String
  editing_mode : Option ConversationMode
deriving DecidableEq

/-- ChatManager.add_or_edit_mode, chat.py lines 274-293. When a mode is
being edited its prompt is replaced (the edited mode is an object aliased
into the modes dict, so the dict entry with that id is updated). Otherwise
a new mode is created from the pending title and the given fresh id; it is
stored, and it is made current exactly when no current mode resolves after
the insertion. A falsy pending title raises ("Invalid state"), modelled as
none. -/
def add_or_edit_mode (s : ModeScratch) (d : ChatData) (prompt : String)
    (freshId : String) : Option (ModeScratch × ChatData × String) :=
  match s.editing_mode with
  | some em =>
      some ({ s with editing_mode := none },
            { d with modes := d.modes.map (fun p =>
                if p.1 = em.id then (p.1, { p.2 with prompt := prompt }) else p) },
            "Mode updated.")
  | none =>
      match s.new_mode_title with
      | none => none
      | some title =>
          if title = "" then none
          else
            let mode : ConversationMode := ⟨title, prompt, freshId⟩
            let s1 : ModeScratch := { s with new_mode_title := none }
            let d1 := add_mode d mode
            let d2 := if (current_mode d1).isSome then d1
                      else set_current_mode d1 (some mode)
            some (s1, d2, "Mode added.")

/-! ### Expiry timer world

`asyncio` timer tasks are modelled by an explicit world: a counter issuing
fresh task ids, the set of scheduled-and-not-yet-cancelled expiry tasks, and
the `ChatState.timeout_task` handle. -/

/-- The timer-related part of the chat's process-local state: the source of
fresh task ids, the ids of live (scheduled, uncancelled) expiry tasks, and
the `timeout_task` handle of chat.py line 27. -/
structure TimerState where
  nextId : Nat
  live : List Nat
  handle : Option Nat
deriving DecidableEq

/-- ChatManager.__add_timeout_task, chat.py lines 398-415: cancel and clear
any existing handle, then, only when a truthy (positive) timeout is
configured, schedule a fresh expiry task and store its handle. -/
def add_timeout_task (ts : TimerState) (timeout : Option Nat) : TimerState :=
  let ts1 :=
    match ts.handle with
    | some id => { ts with live := ts.live.erase id, handle := none }
    | none => ts
  match timeout with
  | none => ts1
  | some 0 => ts1
  | some (_ + 1) =>
      { nextId := ts1.nextId + 1,
        live := ts1.live ++ [ts1.nextId],
        handle := some ts1.nextId }

/-- Well-formedness of the timer world: the handle is exactly the unique
live task when present, there is no live task without a handle, and all
live ids are below the fresh-id counter. -/
def TimerWF (ts : TimerState) : Prop :=
  (∀ id, ts.handle = some id → ts.live = [id]) ∧
  (ts.handle = none → ts.live = []) ∧
  (∀ id ∈ ts.live, id < ts.nextId)

/-! ### Expiry of the current conversation -/

/-- An edit of an existing Telegram message: target message id, new text,
and the callback data of the attached button when one is attached. -/
structure MessageEdit where
  messageId : Nat
  text : String
  callback : Option String
deriving DecidableEq

/-- ChatManager.__expire_current_conversation, chat.py lines 417-434: when
no conversation is current, do nothing; otherwise clear the pointer, and
only when the conversation's last message is an assistant message rewrite
it to append the expiry notice with a resume button keyed by the
conversation id. Returns the new current-conversation pointer and the
issued edit, if any. -/
def expire_current_conversation (cur : Option Conversation) :
    Option Conversation × Option MessageEdit :=
  match cur with
  | none => (none, none)
  | some conv =>
      match conv.last_message with
      | none => (none, none)
      | some m =>
          if m.role = Role.assistant then
            (none, some
              { messageId := m.id,
                text := m.content ++ "\n\nThis conversation has expired and it was about \"" ++ conv.title ++ "\". A new conversation has started.",
                callback := some ("/resume_" ++ toString conv.id) })
          else (none, none)

/-! ### Completion orchestrator (ChatManager.__complete, chat.py 341-378)

The streaming generator `gpt.complete` is an external collaborator (gpt.py
is not among the sources); per the spec it yields a finite sequence of
cumulative partial snapshots and then either completes, raises a timeout
error, or raises a generic error. Each yielded snapshot is modelled with
the loop time at which it arrives and whether the previously created edit
task (if any) is observed done at that point. -/

/-- One snapshot yielded by the streaming generator inside the async-for of
chat.py line 350: the cumulative content so far, the event-loop time at
which the loop body runs for it, and whether `last_update_task.done()`
holds at that moment. -/
structure Snapshot where
  content : String
  now : Nat
  editDone : Bool
deriving DecidableEq

/-- An edit issued on the placeholder message: the new text and whether a
retry button is attached. -/
structure Edit where
  text : String
  retryButton : Bool
deriving DecidableEq

/-- The loop-local state of __complete: `final_message` (content only),
whether a `last_update_task` exists, and `last_update_time`,
chat.py lines 345-348. -/
structure LoopState where
  finalMessage : Option String
  hasTask : Bool
  lastUpdateTime : Nat
deriving DecidableEq

/-- One iteration of the async-for body, chat.py lines 350-361: record the
snapshot as `final_message`; skip if an edit task exists and is not done;
skip if fewer than 2 time units elapsed since `last_update_time`; otherwise
issue an intermediate edit carrying the snapshot content with the
"Generating..." marker and remember the issue time. -/
def completeStep (st : LoopState) (s : Snapshot) : LoopState × Option Edit :=
  let st0 : LoopState := { st with finalMessage := some s.content }
  if st.hasTask ∧ ¬s.editDone then (st0, none)
  else if s.now - st.lastUpdateTime < 2 then (st0, none)
  else ({ st0 with lastUpdateTime := s.now, hasTask := true },
        some ⟨s.content ++ "\n\nGenerating...", false⟩)

/-- The whole async-for loop over the snapshots the generator yields before
terminating, returning the final loop state and the intermediate edits in
issuance order. -/
def completeLoop (st : LoopState) (snaps : List Snapshot) :
    LoopState × List Edit :=
  match snaps with
  | [] => (st, [])
  | s :: rest =>
      let r1 := completeStep st s
      let r2 := completeLoop r1.1 rest
      (r2.1, r1.2.toList ++ r2.2)

/-- How one run of the streaming generator terminates, after yielding the
recorded snapshots: normal exhaustion, TimeoutError, or a generic
exception (spec sections 4.3 and 6; gpt.py is not among the sources). -/
inductive GenRun where
  | success (snaps : List Snapshot)
  | timeout (snaps : List Snapshot)
  | failure (snaps : List Snapshot)
deriving DecidableEq

/-- The snapshots consumed by the loop during a run. -/
def GenRun.snaps : GenRun → List Snapshot
  | .success s => s
  | .timeout s => s
  | .failure s => s

/-- The full sequence of edits __complete issues on the placeholder
message, chat.py lines 341-374: the throttled intermediate edits, then on
normal completion the unconditional final edit with the full content and no
marker (only when at least one snapshot arrived, since `final_message`
stays None otherwise), or on TimeoutError / a generic exception the
corresponding error notice with a Retry button. -/
def completeEdits (t0 : Nat) (g : GenRun) : List Edit :=
  let r := completeLoop ⟨none, false, t0⟩ g.snaps
  match g with
  | .success _ =>
      r.2 ++ (match r.1.finalMessage with
              | some c => [⟨c, false⟩]
              | none => [])
  | .timeout _ => r.2 ++ [⟨"Generation timed out.", true⟩]
  | .failure _ => r.2 ++ [⟨"Error generating response", true⟩]

/-- Modelled from the spec: the effect of one generator run on the
conversation's message list (gpt.py is not among the sources). On normal
completion the backend has appended the final assistant message, carrying
the placeholder message id (spec sections 3 and 8: message sequences
alternate user/assistant after each completed exchange); on a timeout or
error no assistant message is appended. -/
def applyGenToConversation (conv : Conversation) (sentMessageId : Nat)
    (g : GenRun) : Conversation :=
  match g with
  | .success snaps =>
      match snaps.getLast? with
      | some s =>
          { conv with messages :=
              conv.messages ++ [⟨sentMessageId, Role.assistant, s.content⟩] }
      | none => conv
  | .timeout _ => conv
  | .failure _ => conv

/-- The observable outcome of one run of ChatManager.__complete: the edits
issued on the placeholder, the conversation after the run, the timer world
after the unconditional re-arm of chat.py line 378, and the
current-conversation pointer set unconditionally at chat.py line 376. -/
structure CompleteResult where
  edits : List Edit
  conversation : Conversation
  timers : TimerState
  current_conversation : Option Conversation
deriving DecidableEq

/-- ChatManager.__complete, chat.py lines 341-378, end to end: stream and
edit (with error handling), then — on every path, after the try/except —
set the conversation as current and re-arm the expiry timer. -/
def completeOp (conv : Conversation) (sentMessageId : Nat) (ts : TimerState)
    (timeout : Option Nat) (t0 : Nat) (g : GenRun) : CompleteResult :=
  let conv1 := applyGenToConversation conv sentMessageId g
  { edits := completeEdits t0 g,
    conversation := conv1,
    timers := add_timeout_task ts timeout,
    current_conversation := some conv1 }

/-! ### Retry (ChatManager.retry_last_message, chat.py 167-183) -/

/-- What retry_last_message does after its lookups: send a notice and stop
(no current conversation), edit the placeholder to a notice and stop, or
proceed into __complete with the (possibly popped) conversation whose last
message is the triggering user message. -/
inductive RetryAction where
  | sendNotice (text : String)
  | editNotice (text : String)
  | complete (conv : Conversation) (trigger : Message)
deriving DecidableEq

/-- ChatManager.retry_last_message, chat.py lines 167-183: with no current
conversation, send "No conversation to retry"; otherwise pop the last
message exactly when it is an assistant message; then, if the (now) last
message is absent or not a user message, edit the placeholder to
"No message to retry" and stop; otherwise run __complete on the
conversation, whose last message is the triggering user message. -/
def retry_last_message (cur : Option Conversation) : RetryAction :=
  match cur with
  | none => .sendNotice "No conversation to retry"
  | some conv =>
      let conv1 :=
        match conv.last_message with
        | some m =>
            if m.role = Role.assistant
            then { conv with messages := conv.messages.dropLast }
            else conv
        | none => conv
      match conv1.last_message with
      | some u =>
          if u.role = Role.user then .complete conv1 u
          else .editNotice "No message to retry"
      | none => .editNotice "No message to retry"

/-! ### Per-chat serializer (bot.py, __create_callback.handler, lines 232-259)

For one chat, consider two operations submitted in order A then B, with B
submitted while A is pending.  The handler wraps each operation in a task
that first awaits the previously stored task — catching and logging its
failure — and then runs the operation's own body; the submitting handler
itself awaits the stored task and clears the `chat_tasks` slot when it
resumes.  Cooperative scheduling is modelled by a nondeterministic
scheduler: a schedule is a list of choices naming which runnable task
advances by one atomic segment.  Choice 0 advances operation A's body
(lenA segments), choice 1 advances B's chained task (first its await of
A's task, which can only complete once A's body is exhausted, then B's
lenB body segments), choice 2 resumes A's submitting handler (gated on A's
task being done; it deletes the chat_tasks entry), choice 3 resumes B's
submitting handler (gated on B's task being done).  A blocked or exhausted
choice is a no-op. -/

/-- Observable events of the two-operation serializer run: a mutation
segment of A, completion of B's await of A's task (with the flag telling
whether A's failure was caught and logged there, bot.py lines 246-249),
and a mutation segment of B. -/
inductive SerEvent where
  | aSeg (i : Nat)
  | bAwait (loggedPrevError : Bool)
  | bSeg (i : Nat)
deriving DecidableEq

/-- Scheduler state for the two chained operations: progress counters of
A's body and of B's chained task, whether each submitting handler has
resumed, whether `chat_tasks` still holds an entry for this chat, and the
event trace so far.  `m = 0` means B has not yet passed its await of A's
task; `m = j + 1` means the await completed and j of B's segments ran. -/
structure SerState where
  k : Nat
  m : Nat
  hA : Bool
  hB : Bool
  slot : Bool
  trace : List SerEvent
deriving DecidableEq

/-- Initial serializer state, directly after both submissions: nothing ran
yet and the chat_tasks slot holds B's task (bot.py line 252). -/
def serInit : SerState := ⟨0, 0, false, false, true, []⟩

/-- One scheduler step for the chosen task (see the section comment). -/
def serStep (lenA lenB : Nat) (aErr : Bool) (s : SerState) (c : Nat) :
    SerState :=
  if c = 0 then
    if s.k < lenA then
      { s with k := s.k + 1, trace := s.trace ++ [SerEvent.aSeg s.k] }
    else s
  else if c = 1 then
    if s.k = lenA ∧ s.m = 0 then
      { s with m := 1, trace := s.trace ++ [SerEvent.bAwait aErr] }
    else if 1 ≤ s.m ∧ s.m ≤ lenB then
      { s with m := s.m + 1, trace := s.trace ++ [SerEvent.bSeg (s.m - 1)] }
    else s
  else if c = 2 then
    if s.k = lenA ∧ ¬s.hA then { s with hA := true, slot := false } else s
  else
    if s.m = lenB + 1 ∧ ¬s.hB then { s with hB := true, slot := false } else s

/-- Run a schedule from the initial state. -/
def serRun (lenA lenB : Nat) (aErr : Bool) (sched : List Nat) : SerState :=
  sched.foldl (serStep lenA lenB aErr) serInit

/-- The canonical trace determined by the two progress counters: all of A's
segments ran before B's await completed, which happened before any of B's
segments. -/
def serCanonicalTrace (aErr : Bool) (k m : Nat) : List SerEvent :=
  (List.range k).map SerEvent.aSeg ++
  (match m with
   | 0 => []
   | j + 1 => SerEvent.bAwait aErr :: (List.range j).map SerEvent.bSeg)

/-- A schedule that drives both operations and both handlers to
completion. -/
def serFullSched (lenA lenB : Nat) : List Nat :=
  List.replicate lenA 0 ++ [1] ++ List.replicate lenB 1 ++ [2, 3]

/-- Invariant of the serializer scheduler: progress counters stay in
range, B has passed its await only once A's body is exhausted, a resumed
handler implies its task was done and the slot is cleared, and the trace
is the canonical one determined by the counters. -/
def SerInv (lenA lenB : Nat) (aErr : Bool) (s : SerState) : Prop :=
  s.k ≤ lenA ∧ s.m ≤ lenB + 1 ∧ (1 ≤ s.m → s.k = lenA) ∧
  (s.hA = true → s.k = lenA ∧ s.slot = false) ∧
  (s.hB = true → s.m = lenB + 1) ∧
  s.trace = serCanonicalTrace aErr s.k s.m

/-! ## Lemmas and theorems -/

theorem dictGet_dictDelete_self (l : List (String × ConversationMode))
    (k : String) : dictGet (dictDelete l k) k = none := by
  induction l with
  | nil => rfl
  | cons p rest ih =>
      by_cases h : p.1 = k
      · simpa [dictDelete, List.filter_cons, h] using ih
      · simpa [dictDelete, List.filter_cons, h, dictGet] using ih

theorem dictGet_dictInsert_self (l : List (String × ConversationMode))
    (k : String) (v : ConversationMode) : dictGet (dictInsert l k v) k = some v := by
  induction l with
  | nil => simp [dictInsert, dictGet]
  | cons p rest ih =>
      by_cases h : p.1 = k
      · simp [dictInsert, h, dictGet]
      · simpa [dictInsert, h, dictGet] using ih

theorem dictGet_dictInsert_ne (l : List (String × ConversationMode))
    (k i : String) (v : ConversationMode) (h : i ≠ k) :
    dictGet (dictInsert l k v) i = dictGet l i := by
  induction l with
  | nil => simp [dictInsert, dictGet, Ne.symm h]
  | cons p rest ih =>
      by_cases hp : p.1 = k
      · subst hp
        simp [dictInsert, dictGet, h, Ne.symm h]
      · by_cases hpi : p.1 = i
        · simp [dictInsert, hp, dictGet, hpi, h]
        · simpa [dictInsert, hp, dictGet, hpi] using ih

/-- C8: after delete_mode removes the mode whose dict key is the chat's
current_mode_id (the stored mode's id field equalling its key, as add_mode
guarantees), reading the current mode resolves the dangling reference to
none, never a stale mode value.  Reads are pure, so this covers every
subsequent read. -/
theorem C8_delete_current_mode (d : ChatData) (i : String)
    (m : ConversationMode) (hget : dictGet d.modes i = some m)
    (hid : m.id = i) (hcur : d.current_mode_id = some i) :
    current_mode (delete_mode d i).1 = none := by
  unfold delete_mode
  rw [hget]
  unfold current_mode
  simp only [hcur, hid]
  by_cases hi : i = ""
  · simp [hi]
  · simp [hi, dictGet_dictDelete_self]

/-- C8 witness: deleting the single stored mode "x" while it is current
makes the current mode read return none. -/
theorem C8_delete_current_mode_witness :
    current_mode (delete_mode ⟨[("x", ⟨"T", "P", "x"⟩)], some "x"⟩ "x").1 = none :=
  C8_delete_current_mode ⟨[("x", ⟨"T", "P", "x"⟩)], some "x"⟩ "x" ⟨"T", "P", "x"⟩
    (by decide) (by decide) (by decide)

/-- C10: creating a mode (no edit pending, a nonempty title pending, the
generated id fresh) stores it and makes it current exactly when no current
mode resolved; an already-resolving current mode reference is left
unchanged. -/
theorem C10_mode_creation_default (s : ModeScratch) (d : ChatData)
    (prompt title freshId : String) (hedit : s.editing_mode = none)
    (htitle : s.new_mode_title = some title) (hne : title ≠ "")
    (hfreshNe : freshId ≠ "")
    (hfreshCur : d.current_mode_id ≠ some freshId) :
    ∃ s1 d2, add_or_edit_mode s d prompt freshId = some (s1, d2, "Mode added.") ∧
      (current_mode d = none →
        d2.current_mode_id = some freshId ∧
        current_mode d2 = some ⟨title, prompt, freshId⟩) ∧
      ((current_mode d).isSome → d2.current_mode_id = d.current_mode_id) := by
  have hd1 : current_mode (add_mode d ⟨title, prompt, freshId⟩) = current_mode d := by
    unfold current_mode add_mode
    cases hc : d.current_mode_id with
    | none => rfl
    | some i =>
        by_cases hi : i = ""
        · simp [hi]
        · have hik : i ≠ freshId := by
            intro h
            exact hfreshCur (by rw [hc, h])
          simp only [hi, if_neg hi]
          exact dictGet_dictInsert_ne d.modes freshId i ⟨title, prompt, freshId⟩ hik
  by_cases hcm : (current_mode (add_mode d ⟨title, prompt, freshId⟩)).isSome
  · refine ⟨{ s with new_mode_title := none },
      add_mode d ⟨title, prompt, freshId⟩, ?_, ?_, ?_⟩
    · simp [add_or_edit_mode, hedit, htitle, hne, hcm]
    · intro hnone
      rw [hd1, hnone] at hcm
      simp at hcm
    · intro _
      rfl
  · refine ⟨{ s with new_mode_title := none },
      set_current_mode (add_mode d ⟨title, prompt, freshId⟩)
        (some ⟨title, prompt, freshId⟩), ?_, ?_, ?_⟩
    · simp [add_or_edit_mode, hedit, htitle, hne, hcm]
    · intro _
      refine ⟨rfl, ?_⟩
      unfold current_mode set_current_mode
      simp [hfreshNe, add_mode, dictGet_dictInsert_self]
    · intro hsome
      rw [hd1, hsome] at hcm
      simp at hcm

/-- C10 witness: creating mode "Ti" in a chat with no modes and no current
mode makes it the current mode. -/
theorem C10_mode_creation_default_witness :
    ∃ s1 d2, add_or_edit_mode ⟨some "Ti", none⟩ ⟨[], none⟩ "Pr" "f1" =
        some (s1, d2, "Mode added.") ∧
      (current_mode ⟨[], none⟩ = none →
        d2.current_mode_id = some "f1" ∧
        current_mode d2 = some ⟨"Ti", "Pr", "f1"⟩) ∧
      ((current_mode ⟨[], none⟩).isSome → d2.current_mode_id = (⟨[], none⟩ : ChatData).current_mode_id) :=
  C10_mode_creation_default ⟨some "Ti", none⟩ ⟨[], none⟩ "Pr" "Ti" "f1"
    (by decide) (by decide) (by decide) (by decide) (by decide)

theorem expire_fst (cur : Option Conversation) :
    (expire_current_conversation cur).1 = none := by
  cases cur with
  | none => rfl
  | some conv =>
      cases h : conv.last_message with
      | none => simp [expire_current_conversation, h]
      | some m =>
          by_cases hr : m.role = Role.assistant <;>
            simp [expire_current_conversation, h, hr]

/-- C6: expiry is a no-op when no conversation is current (so a second
call right after any call changes nothing, since the first always leaves
no current conversation); otherwise it clears the pointer and rewrites the
last message with the expiry notice naming the title and a resume button
keyed by the conversation id exactly when that last message is an
assistant message. -/
theorem C6_expiry :
    (expire_current_conversation none = (none, none)) ∧
    (∀ cur, expire_current_conversation ((expire_current_conversation cur).1) =
      (none, none)) ∧
    (∀ conv m, conv.last_message = some m → m.role = Role.assistant →
      expire_current_conversation (some conv) = (none, some
        { messageId := m.id,
          text := m.content ++ "\n\nThis conversation has expired and it was about \"" ++ conv.title ++ "\". A new conversation has started.",
          callback := some ("/resume_" ++ toString conv.id) })) ∧
    (∀ conv m, conv.last_message = some m → m.role ≠ Role.assistant →
      expire_current_conversation (some conv) = (none, none)) ∧
    (∀ conv, conv.last_message = none →
      expire_current_conversation (some conv) = (none, none)) := by
  refine ⟨rfl, ?_, ?_, ?_, ?_⟩
  · intro cur
    rw [expire_fst]
    rfl
  · intro conv m hm hrole
    simp [expire_current_conversation, hm, hrole]
  · intro conv m hm hrole
    simp [expire_current_conversation, hm, hrole]
  · intro conv hm
    simp [expire_current_conversation, hm]

/-- C6 witness: expiring a conversation whose last message is an assistant
message issues the rewrite with title and resume button. -/
theorem C6_expiry_witness :
    expire_current_conversation
        (some ⟨7, "Title", [⟨1, Role.user, "q"⟩, ⟨9, Role.assistant, "ans"⟩]⟩) =
      (none, some
        { messageId := 9,
          text := "ans" ++ "\n\nThis conversation has expired and it was about \"" ++ "Title" ++ "\". A new conversation has started.",
          callback := some ("/resume_" ++ toString (7 : Nat)) }) :=
  C6_expiry.2.2.1 ⟨7, "Title", [⟨1, Role.user, "q"⟩, ⟨9, Role.assistant, "ans"⟩]⟩
    ⟨9, Role.assistant, "ans"⟩ (by decide) (by decide)

theorem timerWF_empty (N : Nat) : TimerWF ⟨N, [], none⟩ :=
  ⟨fun _ hid => Option.noConfusion hid, fun _ => rfl, fun _ hid => by simp at hid⟩

theorem timerWF_single (N : Nat) : TimerWF ⟨N + 1, [N], some N⟩ := by
  refine ⟨?_, ?_, ?_⟩
  · intro id hid
    injection hid with hid
    rw [hid]
  · intro hid
    exact Option.noConfusion hid
  · intro id hid
    simp at hid
    subst hid
    exact Nat.lt_succ_self _

theorem timerWF_shape (ts : TimerState) (h : TimerWF ts) :
    ts = ⟨ts.nextId, [], none⟩ ∨
    ∃ id0, id0 < ts.nextId ∧ ts = ⟨ts.nextId, [id0], some id0⟩ := by
  obtain ⟨nid, lv, hd⟩ := ts
  obtain ⟨h1, h2, h3⟩ := h
  cases hd with
  | none =>
      have hl : lv = [] := h2 rfl
      subst hl
      exact Or.inl rfl
  | some id0 =>
      have hl : lv = [id0] := h1 id0 rfl
      subst hl
      refine Or.inr ⟨id0, ?_, rfl⟩
      exact h3 id0 (by simp)

theorem add_timeout_task_eq_some_none (nid id0 : Nat) :
    add_timeout_task ⟨nid, [id0], some id0⟩ none = ⟨nid, [], none⟩ := by
  simp [add_timeout_task]

theorem add_timeout_task_eq_some_zero (nid id0 : Nat) :
    add_timeout_task ⟨nid, [id0], some id0⟩ (some 0) = ⟨nid, [], none⟩ := by
  simp [add_timeout_task]

theorem add_timeout_task_eq_some_succ (nid id0 n : Nat) :
    add_timeout_task ⟨nid, [id0], some id0⟩ (some (n + 1)) =
      ⟨nid + 1, [nid], some nid⟩ := by
  simp [add_timeout_task]

theorem add_timeout_task_spec (ts : TimerState) (h : TimerWF ts) :
    ((add_timeout_task ts none).live = [] ∧
     (add_timeout_task ts none).handle = none) ∧
    ((add_timeout_task ts (some 0)).live = [] ∧
     (add_timeout_task ts (some 0)).handle = none) ∧
    (∀ n, ∃ a, (add_timeout_task ts (some (n + 1))).live = [a] ∧
      (add_timeout_task ts (some (n + 1))).handle = some a ∧
      (∀ id, ts.handle = some id → id ≠ a) ∧
      (add_timeout_task ts (some (n + 1))).nextId = a + 1) := by
  rcases timerWF_shape ts h with hs | ⟨id0, hlt, hs⟩
  · rw [hs]
    exact ⟨⟨rfl, rfl⟩, ⟨rfl, rfl⟩, fun n =>
      ⟨ts.nextId, rfl, rfl, fun id hid => Option.noConfusion hid, rfl⟩⟩
  · rw [hs]
    refine ⟨?_, ?_, ?_⟩
    · rw [add_timeout_task_eq_some_none]
      exact ⟨rfl, rfl⟩
    · rw [add_timeout_task_eq_some_zero]
      exact ⟨rfl, rfl⟩
    · intro n
      rw [add_timeout_task_eq_some_succ]
      refine ⟨ts.nextId, rfl, rfl, ?_, rfl⟩
      intro id hid
      injection hid with hid
      omega

theorem add_timeout_task_wf (ts : TimerState) (t : Option Nat)
    (h : TimerWF ts) : TimerWF (add_timeout_task ts t) := by
  rcases timerWF_shape ts h with hs | ⟨id0, hlt, hs⟩
  · rw [hs]
    cases t with
    | none => exact timerWF_empty _
    | some t0 =>
        cases t0 with
        | zero => exact timerWF_empty _
        | succ n => exact timerWF_single _
  · rw [hs]
    cases t with
    | none =>
        rw [add_timeout_task_eq_some_none]
        exact timerWF_empty _
    | some t0 =>
        cases t0 with
        | zero =>
            rw [add_timeout_task_eq_some_zero]
            exact timerWF_empty _
        | succ n =>
            rw [add_timeout_task_eq_some_succ]
            exact timerWF_single _

theorem timerWF_live_length (ts : TimerState) (h : TimerWF ts) :
    ts.live.length ≤ 1 := by
  obtain ⟨h1, h2, _⟩ := h
  cases hh : ts.handle with
  | none => simp [h2 hh]
  | some id0 => simp [h1 id0 hh]

theorem add_timeout_task_cancels (ts : TimerState) (t : Option Nat)
    (h : TimerWF ts) : ∀ id, ts.handle = some id →
      id ∉ (add_timeout_task ts t).live := by
  intro id hid
  obtain ⟨hspec0, hspec1, hspecS⟩ := add_timeout_task_spec ts h
  cases t with
  | none => simp [hspec0.1]
  | some t0 =>
      cases t0 with
      | zero => simp [hspec1.1]
      | succ n =>
          obtain ⟨a, hlive, _, hne, _⟩ := hspecS n
          rw [hlive]
          simp only [List.mem_singleton]
          exact hne id hid

/-- C7: arming the expiry timer preserves timer well-formedness and leaves
at most one live timer; it cancels the previously held timer handle; with
no configured timeout (or a zero one) it schedules nothing and clears the
handle; and arming twice with a positive timeout leaves exactly one live
timer, the second replacing the first. -/
theorem C7_single_live_timer (ts : TimerState) (t : Option Nat) (n : Nat)
    (h : TimerWF ts) :
    (TimerWF (add_timeout_task ts t) ∧
     (add_timeout_task ts t).live.length ≤ 1) ∧
    (∀ id, ts.handle = some id → id ∉ (add_timeout_task ts t).live) ∧
    ((add_timeout_task ts none).live = [] ∧
     (add_timeout_task ts none).handle = none) ∧
    ((add_timeout_task ts (some 0)).live = [] ∧
     (add_timeout_task ts (some 0)).handle = none) ∧
    (∃ a b, (add_timeout_task ts (some (n + 1))).live = [a] ∧
      (add_timeout_task (add_timeout_task ts (some (n + 1)))
        (some (n + 1))).live = [b] ∧ a ≠ b) := by
  have hwf1 := add_timeout_task_wf ts t h
  obtain ⟨hspec0, hspec1, hspecS⟩ := add_timeout_task_spec ts h
  refine ⟨⟨hwf1, timerWF_live_length _ hwf1⟩,
    add_timeout_task_cancels ts t h, hspec0, hspec1, ?_⟩
  obtain ⟨a, hlive, hhandle, _, hnext⟩ := hspecS n
  have hwfA := add_timeout_task_wf ts (some (n + 1)) h
  obtain ⟨_, _, hspecS2⟩ := add_timeout_task_spec _ hwfA
  obtain ⟨b, hlive2, _, hne2, _⟩ := hspecS2 n
  exact ⟨a, b, hlive, hlive2, hne2 a hhandle⟩

/-- C7 witness: arming from a fresh timer world with timeout 5 twice leaves
exactly one live timer. -/
theorem C7_single_live_timer_witness :
    (TimerWF (add_timeout_task ⟨0, [], none⟩ (some 5)) ∧
     (add_timeout_task ⟨0, [], none⟩ (some 5)).live.length ≤ 1) ∧
    (∀ id, (⟨0, [], none⟩ : TimerState).handle = some id →
      id ∉ (add_timeout_task ⟨0, [], none⟩ (some 5)).live) ∧
    ((add_timeout_task ⟨0, [], none⟩ none).live = [] ∧
     (add_timeout_task ⟨0, [], none⟩ none).handle = none) ∧
    ((add_timeout_task ⟨0, [], none⟩ (some 0)).live = [] ∧
     (add_timeout_task ⟨0, [], none⟩ (some 0)).handle = none) ∧
    (∃ a b, (add_timeout_task ⟨0, [], none⟩ (some (4 + 1))).live = [a] ∧
      (add_timeout_task (add_timeout_task ⟨0, [], none⟩ (some (4 + 1)))
        (some (4 + 1))).live = [b] ∧ a ≠ b) :=
  C7_single_live_timer ⟨0, [], none⟩ (some 5) 4
    ⟨fun id h => Option.noConfusion h, fun _ => rfl, fun id h => by simp at h⟩

theorem completeLoop_cons (st : LoopState) (s : Snapshot)
    (rest : List Snapshot) :
    completeLoop st (s :: rest) =
      ((completeLoop (completeStep st s).1 rest).1,
       (completeStep st s).2.toList ++
         (completeLoop (completeStep st s).1 rest).2) := rfl

theorem completeStep_finalMessage (st : LoopState) (s : Snapshot) :
    (completeStep st s).1.finalMessage = some s.content := by
  unfold completeStep
  split_ifs <;> rfl

theorem completeStep_none_state (st : LoopState) (s : Snapshot)
    (h : (completeStep st s).2 = none) :
    (completeStep st s).1 = { st with finalMessage := some s.content } := by
  unfold completeStep at h ⊢
  split_ifs at h ⊢ <;> simp_all

theorem completeStep_some_state (st : LoopState) (s : Snapshot) (e : Edit)
    (h : (completeStep st s).2 = some e) :
    (completeStep st s).1.lastUpdateTime = s.now ∧
    st.lastUpdateTime + 2 ≤ s.now := by
  unfold completeStep at h
  split_ifs at h with h1 h2
  have h1' : ¬(st.hasTask = true ∧ s.editDone = false) := by simpa using h1
  constructor
  · simp [completeStep, h1', h2]
  · omega

theorem completeStep_emit_iff (st : LoopState) (s : Snapshot) :
    (completeStep st s).2.isSome = true ↔
      ((st.hasTask = true → s.editDone = true) ∧
       st.lastUpdateTime + 2 ≤ s.now) := by
  unfold completeStep
  split_ifs with h1 h2
  · simp only [Option.isSome_none, Bool.false_eq_true, false_iff]
    rintro ⟨himp, _⟩
    exact h1.2 (himp h1.1)
  · simp only [Option.isSome_none, Bool.false_eq_true, false_iff]
    rintro ⟨_, hle⟩
    omega
  · simp only [Option.isSome_some, true_iff]
    refine ⟨?_, by omega⟩
    intro hA
    by_contra hB
    exact h1 ⟨hA, by simpa using hB⟩

theorem completeLoop_finalMessage_getLast (snaps : List Snapshot)
    (s : Snapshot) (h : snaps.getLast? = some s) :
    ∀ st, (completeLoop st snaps).1.finalMessage = some s.content := by
  induction snaps with
  | nil => simp at h
  | cons a rest ih =>
      intro st
      cases rest with
      | nil =>
          have ha : a = s := by simpa using h
          rw [completeLoop_cons]
          show (completeStep st a).1.finalMessage = some s.content
          rw [completeStep_finalMessage st a, ha]
      | cons b rest2 =>
          rw [List.getLast?_cons_cons] at h
          rw [completeLoop_cons]
          exact ih h (completeStep st a).1

theorem completeLoop_throttle (lo hi : Nat) (snaps : List Snapshot) :
    ∀ st, (∀ s ∈ snaps, lo ≤ s.now ∧ s.now ≤ hi) →
    ((completeLoop st snaps).2.length = 0 ∧
     (completeLoop st snaps).1.lastUpdateTime = st.lastUpdateTime) ∨
    (1 ≤ (completeLoop st snaps).2.length ∧
     st.lastUpdateTime + 2 * (completeLoop st snaps).2.length ≤
       (completeLoop st snaps).1.lastUpdateTime ∧
     lo + 2 * ((completeLoop st snaps).2.length - 1) ≤
       (completeLoop st snaps).1.lastUpdateTime ∧
     (completeLoop st snaps).1.lastUpdateTime ≤ hi) := by
  induction snaps with
  | nil =>
      intro st _
      exact Or.inl ⟨rfl, rfl⟩
  | cons s rest ih =>
      intro st hb
      have hbs : lo ≤ s.now ∧ s.now ≤ hi := hb s (List.mem_cons_self s rest)
      have hbr : ∀ x ∈ rest, lo ≤ x.now ∧ x.now ≤ hi :=
        fun x hx => hb x (List.mem_cons_of_mem s hx)
      rw [completeLoop_cons]
      cases hstep : (completeStep st s).2 with
      | none =>
          have hlu : (completeStep st s).1.lastUpdateTime = st.lastUpdateTime := by
            rw [completeStep_none_state st s hstep]
          rcases ih (completeStep st s).1 hbr with ⟨hc, hl⟩ | ⟨hc, hl1, hl2, hl3⟩
          · exact Or.inl ⟨by simp [hc], by rw [hl, hlu]⟩
          · refine Or.inr ⟨by simpa using hc, ?_, by simpa using hl2, hl3⟩
            simpa [hlu] using hl1
      | some e =>
          obtain ⟨hbs1, hbs2⟩ := hbs
          obtain ⟨hlu, hge⟩ := completeStep_some_state st s e hstep
          rcases ih (completeStep st s).1 hbr with ⟨hc, hl⟩ | ⟨hc, hl1, hl2, hl3⟩
          · refine Or.inr ?_
            dsimp only
            simp only [Option.toList_some, List.singleton_append,
              List.length_cons, hc, hl, hlu]
            omega
          · refine Or.inr ?_
            dsimp only
            simp only [Option.toList_some, List.singleton_append,
              List.length_cons]
            omega

/-- C1: whatever the generator run looks like, the last edit issued on the
placeholder message is either the final snapshot's complete content with no
"Generating..." marker and no button (normal completion, which always
issues the unconditional final edit), or the timeout notice, or the generic
error notice, both with a Retry button — never an intermediate marked
snapshot. -/
theorem C1_placeholder_final_state :
    (∀ t0 snaps (s : Snapshot), snaps.getLast? = some s →
      (completeEdits t0 (GenRun.success snaps)).getLast? =
        some ⟨s.content, false⟩) ∧
    (∀ t0 snaps, (completeEdits t0 (GenRun.timeout snaps)).getLast? =
      some ⟨"Generation timed out.", true⟩) ∧
    (∀ t0 snaps, (completeEdits t0 (GenRun.failure snaps)).getLast? =
      some ⟨"Error generating response", true⟩) := by
  refine ⟨?_, ?_, ?_⟩
  · intro t0 snaps s h
    have hfm := completeLoop_finalMessage_getLast snaps s h ⟨none, false, t0⟩
    unfold completeEdits
    dsimp only [GenRun.snaps]
    rw [hfm]
    exact List.getLast?_concat _
  · intro t0 snaps
    unfold completeEdits
    exact List.getLast?_concat _
  · intro t0 snaps
    unfold completeEdits
    exact List.getLast?_concat _

/-- C1 witness: a one-snapshot success run ends with the unmarked full
content; a timeout run ends with the timeout notice and Retry button. -/
theorem C1_placeholder_final_state_witness :
    (completeEdits 0 (GenRun.success [⟨"hello", 5, true⟩])).getLast? =
      some ⟨"hello", false⟩ ∧
    (completeEdits 0 (GenRun.timeout [])).getLast? =
      some ⟨"Generation timed out.", true⟩ :=
  ⟨C1_placeholder_final_state.1 0 [⟨"hello", 5, true⟩] ⟨"hello", 5, true⟩
      (by decide),
   C1_placeholder_final_state.2.1 0 []⟩

/-- C2: an intermediate edit is issued at a snapshot iff no previously
issued edit is still in flight and at least 2 time units elapsed since the
last issued edit (initially, since loop start); a throttled-out snapshot
only replaces the remembered latest content (superseded, no queueing); and
for 5 snapshots each arriving less than 2 time units after the previous
one, strictly fewer than 5 intermediate edits are issued while the final
edit carries the last snapshot's exact content with no marker. -/
theorem C2_streaming_throttle :
    (∀ st s, (completeStep st s).2.isSome = true ↔
      ((st.hasTask = true → s.editDone = true) ∧
       st.lastUpdateTime + 2 ≤ s.now)) ∧
    (∀ st s, (completeStep st s).2 = none →
      (completeStep st s).1 = { st with finalMessage := some s.content }) ∧
    (∀ t0 (s1 s2 s3 s4 s5 : Snapshot),
      s1.now ≤ s2.now → s2.now ≤ s3.now → s3.now ≤ s4.now → s4.now ≤ s5.now →
      s2.now < s1.now + 2 → s3.now < s2.now + 2 → s4.now < s3.now + 2 →
      s5.now < s4.now + 2 →
      (completeLoop ⟨none, false, t0⟩ [s1, s2, s3, s4, s5]).2.length < 5 ∧
      (completeEdits t0 (GenRun.success [s1, s2, s3, s4, s5])).getLast? =
        some ⟨s5.content, false⟩) := by
  refine ⟨completeStep_emit_iff, completeStep_none_state, ?_⟩
  intro t0 s1 s2 s3 s4 s5 h12 h23 h34 h45 g12 g23 g34 g45
  constructor
  · have hbounds : ∀ x ∈ [s1, s2, s3, s4, s5],
        s1.now ≤ x.now ∧ x.now ≤ s1.now + 4 := by
      intro x hx
      simp only [List.mem_cons, List.not_mem_nil, or_false] at hx
      rcases hx with rfl | rfl | rfl | rfl | rfl <;> omega
    rcases completeLoop_throttle s1.now (s1.now + 4) [s1, s2, s3, s4, s5]
        ⟨none, false, t0⟩ hbounds with ⟨hc, _⟩ | ⟨_, _, hl2, hl3⟩
    · omega
    · omega
  · have hlast : [s1, s2, s3, s4, s5].getLast? = some s5 := by
      rw [List.getLast?_cons_cons, List.getLast?_cons_cons,
        List.getLast?_cons_cons, List.getLast?_cons_cons,
        List.getLast?_singleton]
    have hfm := completeLoop_finalMessage_getLast [s1, s2, s3, s4, s5] s5
      hlast ⟨none, false, t0⟩
    unfold completeEdits
    dsimp only [GenRun.snaps]
    rw [hfm]
    exact List.getLast?_concat _

/-- C2 witness: 5 snapshots at times 10..14 (all gaps of 1 time unit)
issue fewer than 5 intermediate edits and the final edit is the complete
last content. -/
theorem C2_streaming_throttle_witness :
    (completeLoop ⟨none, false, 10⟩ [⟨"a", 10, true⟩, ⟨"ab", 11, true⟩,
      ⟨"abc", 12, true⟩, ⟨"abcd", 13, true⟩,
      ⟨"abcde", 14, true⟩]).2.length < 5 ∧
    (completeEdits 10 (GenRun.success [⟨"a", 10, true⟩, ⟨"ab", 11, true⟩,
      ⟨"abc", 12, true⟩, ⟨"abcd", 13, true⟩,
      ⟨"abcde", 14, true⟩])).getLast? = some ⟨"abcde", false⟩ :=
  C2_streaming_throttle.2.2 10 ⟨"a", 10, true⟩ ⟨"ab", 11, true⟩
    ⟨"abc", 12, true⟩ ⟨"abcd", 13, true⟩ ⟨"abcde", 14, true⟩
    (by decide) (by decide) (by decide) (by decide)
    (by decide) (by decide) (by decide) (by decide)

/-- C3: on a current conversation whose last message is an assistant
message, retry pops exactly that message; when the preceding message is a
user message, completion is re-issued with that user message as the
trigger, and a successful completion (which appends one assistant reply)
restores the original message count; when the message preceding the popped
reply is not a user message, the code reports "No message to retry" and
does not reach the generator. -/
theorem C3_retry_after_assistant (conv : Conversation) (am : Message)
    (hlast : conv.last_message = some am)
    (hrole : am.role = Role.assistant) :
    (∀ um, conv.messages.dropLast.getLast? = some um → um.role = Role.user →
      retry_last_message (some conv) =
        RetryAction.complete
          { conv with messages := conv.messages.dropLast } um ∧
      conv.messages.dropLast.length + 1 = conv.messages.length ∧
      ∀ sid s ss, (applyGenToConversation
          { conv with messages := conv.messages.dropLast } sid
          (GenRun.success (s :: ss))).messages.length =
        conv.messages.length) ∧
    ((∀ um, conv.messages.dropLast.getLast? = some um →
        um.role ≠ Role.user) →
      retry_last_message (some conv) =
        RetryAction.editNotice "No message to retry") := by
  have hne : conv.messages ≠ [] := by
    intro hnil
    rw [Conversation.last_message, hnil] at hlast
    simp at hlast
  have hpos : 1 ≤ conv.messages.length := List.length_pos.mpr hne
  have hbody : retry_last_message (some conv) =
      (match (conv.messages.dropLast.getLast? : Option Message) with
       | some u =>
           if u.role = Role.user then
             RetryAction.complete
               { conv with messages := conv.messages.dropLast } u
           else RetryAction.editNotice "No message to retry"
       | none => RetryAction.editNotice "No message to retry") := by
    simp only [retry_last_message, hlast, hrole, if_true]
    rfl
  constructor
  · intro um hum hrum
    refine ⟨?_, ?_, ?_⟩
    · rw [hbody, hum]
      simp [hrum]
    · rw [List.length_dropLast]
      omega
    · intro sid s ss
      obtain ⟨x, hx⟩ : ∃ x, (s :: ss).getLast? = some x := by
        cases hx : (s :: ss).getLast? with
        | none =>
            rw [List.getLast?_eq_none_iff] at hx
            exact absurd hx (by simp)
        | some x => exact ⟨x, rfl⟩
      dsimp only [applyGenToConversation]
      rw [hx]
      show (conv.messages.dropLast ++
        [Message.mk sid Role.assistant x.content]).length =
        conv.messages.length
      rw [List.length_append, List.length_dropLast]
      simp only [List.length_singleton]
      omega
  · intro hno
    rw [hbody]
    cases hpl : (conv.messages.dropLast.getLast? : Option Message) with
    | none => rfl
    | some u => simp [hno u hpl]

/-- C3 witness: retrying [user, assistant] pops the assistant reply,
re-issues completion with the user message, and a successful completion
restores the count of 2. -/
theorem C3_retry_after_assistant_witness :
    retry_last_message (some ⟨0, "t", [⟨1, Role.user, "hi"⟩,
        ⟨2, Role.assistant, "yo"⟩]⟩) =
      RetryAction.complete ⟨0, "t", [⟨1, Role.user, "hi"⟩]⟩
        ⟨1, Role.user, "hi"⟩ ∧
    ([⟨1, Role.user, "hi"⟩, ⟨2, Role.assistant, "yo"⟩] :
      List Message).dropLast.length + 1 = 2 ∧
    (applyGenToConversation ⟨0, "t", [⟨1, Role.user, "hi"⟩]⟩ 9
      (GenRun.success [⟨"yo2", 0, true⟩])).messages.length = 2 :=
  have h := (C3_retry_after_assistant
    ⟨0, "t", [⟨1, Role.user, "hi"⟩, ⟨2, Role.assistant, "yo"⟩]⟩
    ⟨2, Role.assistant, "yo"⟩ (by decide) (by decide)).1
    ⟨1, Role.user, "hi"⟩ (by decide) (by decide)
  ⟨h.1, h.2.1, h.2.2 9 ⟨"yo2", 0, true⟩ []⟩

/-- C4 counterexample: on a conversation whose last message is a user
message, retry_last_message does not report "No message to retry"; it
proceeds into __complete with that user message, i.e. it does call the
generative backend, contradicting the claim. -/
theorem C4_retry_user_last_counterexample :
    retry_last_message (some ⟨0, "t", [⟨1, Role.user, "hi"⟩]⟩) =
      RetryAction.complete ⟨0, "t", [⟨1, Role.user, "hi"⟩]⟩
        ⟨1, Role.user, "hi"⟩ ∧
    retry_last_message (some ⟨0, "t", [⟨1, Role.user, "hi"⟩]⟩) ≠
      RetryAction.editNotice "No message to retry" := by
  decide

/-- C4 amended: on a current conversation whose last message is a user
message, retry_last_message removes nothing and re-issues completion with
that user message ("No message to retry" is reported only when, after the
conditional pop of a trailing assistant message, the last message is
absent or not a user message). -/
theorem C4_retry_user_last_amended (conv : Conversation) (u : Message)
    (hlast : conv.last_message = some u) (hrole : u.role = Role.user) :
    retry_last_message (some conv) = RetryAction.complete conv u := by
  simp [retry_last_message, hlast, hrole]

/-- C4 amended witness: retrying a conversation holding just one user
message proceeds to completion with it. -/
theorem C4_retry_user_last_amended_witness :
    retry_last_message (some ⟨5, "w", [⟨3, Role.user, "q"⟩]⟩) =
      RetryAction.complete ⟨5, "w", [⟨3, Role.user, "q"⟩]⟩
        ⟨3, Role.user, "q"⟩ :=
  C4_retry_user_last_amended ⟨5, "w", [⟨3, Role.user, "q"⟩]⟩
    ⟨3, Role.user, "q"⟩ (by decide) (by decide)

/-- C5: every completion run — normal, timed out or failed — ends with the
conversation set as the current conversation and the expiry timer re-armed:
the previously held timer handle is cancelled, a positive configured
timeout yields exactly one freshly scheduled live timer, and an absent or
zero timeout leaves no timer and no handle. -/
theorem C5_complete_postconditions (conv : Conversation) (sid : Nat)
    (ts : TimerState) (timeout : Option Nat) (t0 : Nat) (g : GenRun)
    (h : TimerWF ts) :
    (completeOp conv sid ts timeout t0 g).current_conversation =
      some (completeOp conv sid ts timeout t0 g).conversation ∧
    (completeOp conv sid ts timeout t0 g).conversation =
      applyGenToConversation conv sid g ∧
    TimerWF (completeOp conv sid ts timeout t0 g).timers ∧
    (∀ id, ts.handle = some id →
      id ∉ (completeOp conv sid ts timeout t0 g).timers.live) ∧
    ((timeout = none ∨ timeout = some 0) →
      (completeOp conv sid ts timeout t0 g).timers.live = [] ∧
      (completeOp conv sid ts timeout t0 g).timers.handle = none) ∧
    (∀ n, timeout = some (n + 1) →
      ∃ a, (completeOp conv sid ts timeout t0 g).timers.live = [a] ∧
        (completeOp conv sid ts timeout t0 g).timers.handle = some a) := by
  obtain ⟨hs0, hs1, hsS⟩ := add_timeout_task_spec ts h
  refine ⟨rfl, rfl, add_timeout_task_wf ts timeout h,
    add_timeout_task_cancels ts timeout h, ?_, ?_⟩
  · rintro (rfl | rfl)
    · exact hs0
    · exact hs1
  · rintro n rfl
    obtain ⟨a, ha1, ha2, _, _⟩ := hsS n
    exact ⟨a, ha1, ha2⟩

/-- C5 witness: a failed completion on a fresh timer world with timeout 3
still sets the conversation current and arms exactly one timer. -/
theorem C5_complete_postconditions_witness :
    (completeOp ⟨0, "t", []⟩ 1 ⟨0, [], none⟩ (some 3) 0
      (GenRun.failure [])).current_conversation =
      some (completeOp ⟨0, "t", []⟩ 1 ⟨0, [], none⟩ (some 3) 0
        (GenRun.failure [])).conversation ∧
    ∃ a, (completeOp ⟨0, "t", []⟩ 1 ⟨0, [], none⟩ (some 3) 0
        (GenRun.failure [])).timers.live = [a] ∧
      (completeOp ⟨0, "t", []⟩ 1 ⟨0, [], none⟩ (some 3) 0
        (GenRun.failure [])).timers.handle = some a :=
  have hwf : TimerWF ⟨0, [], none⟩ :=
    ⟨fun _ hid => Option.noConfusion hid, fun _ => rfl,
     fun _ hid => by simp at hid⟩
  have h := C5_complete_postconditions ⟨0, "t", []⟩ 1 ⟨0, [], none⟩
    (some 3) 0 (GenRun.failure []) hwf
  ⟨h.1, h.2.2.2.2.2 2 rfl⟩

theorem serCanonicalTrace_succ_zero (aErr : Bool) (k : Nat) :
    serCanonicalTrace aErr (k + 1) 0 =
      serCanonicalTrace aErr k 0 ++ [SerEvent.aSeg k] := by
  simp [serCanonicalTrace, List.range_succ]

theorem serCanonicalTrace_one (aErr : Bool) (k : Nat) :
    serCanonicalTrace aErr k 1 =
      serCanonicalTrace aErr k 0 ++ [SerEvent.bAwait aErr] := by
  simp [serCanonicalTrace]

theorem serCanonicalTrace_succ_succ (aErr : Bool) (k j : Nat) :
    serCanonicalTrace aErr k (j + 2) =
      serCanonicalTrace aErr k (j + 1) ++ [SerEvent.bSeg j] := by
  simp [serCanonicalTrace, List.range_succ]

theorem serStep_inv (lenA lenB : Nat) (aErr : Bool) (s : SerState) (c : Nat)
    (h : SerInv lenA lenB aErr s) :
    SerInv lenA lenB aErr (serStep lenA lenB aErr s c) := by
  obtain ⟨h1, h2, h3, h4, h5, h6⟩ := h
  unfold serStep
  split_ifs with hc0 hklt hc1 hawait hseg hc2 hhA hhB
  · -- A's body advances one segment
    have hm0 : s.m = 0 := by
      by_contra hm
      exact absurd (h3 (by omega)) (by omega)
    dsimp only [SerInv]
    refine ⟨by omega, h2, ?_, ?_, h5, ?_⟩
    · intro hm
      have := h3 hm
      omega
    · intro hA
      exact absurd (h4 hA).1 (by omega)
    · rw [h6, hm0, serCanonicalTrace_succ_zero]
  · exact ⟨h1, h2, h3, h4, h5, h6⟩
  · -- B passes its await of A's task
    obtain ⟨hkA, hm0⟩ := hawait
    dsimp only [SerInv]
    refine ⟨h1, by omega, fun _ => hkA, h4, ?_, ?_⟩
    · intro hB
      have := h5 hB
      omega
    · rw [h6, hm0, serCanonicalTrace_one]
  · -- B's body advances one segment
    obtain ⟨hm1, hmB⟩ := hseg
    obtain ⟨j, hj⟩ : ∃ j, s.m = j + 1 := ⟨s.m - 1, by omega⟩
    dsimp only [SerInv]
    refine ⟨h1, by omega, fun _ => h3 hm1, h4, ?_, ?_⟩
    · intro hB
      have := h5 hB
      omega
    · rw [h6, hj]
      simp only [Nat.add_sub_cancel]
      exact (serCanonicalTrace_succ_succ aErr s.k j).symm
  · exact ⟨h1, h2, h3, h4, h5, h6⟩
  · -- A's submitting handler resumes and clears the slot
    dsimp only [SerInv]
    exact ⟨h1, h2, h3, fun _ => ⟨hhA.1, rfl⟩, h5, h6⟩
  · exact ⟨h1, h2, h3, h4, h5, h6⟩
  · -- B's submitting handler resumes
    dsimp only [SerInv]
    exact ⟨h1, h2, h3, fun hA => ⟨(h4 hA).1, rfl⟩, fun _ => hhB.1, h6⟩
  · exact ⟨h1, h2, h3, h4, h5, h6⟩

theorem serInit_inv (lenA lenB : Nat) (aErr : Bool) :
    SerInv lenA lenB aErr serInit :=
  ⟨Nat.zero_le _, Nat.zero_le _, fun h => absurd h (by decide),
   fun h => absurd h (by decide), fun h => absurd h (by decide), rfl⟩

theorem serFold_inv (lenA lenB : Nat) (aErr : Bool) :
    ∀ sched (s : SerState), SerInv lenA lenB aErr s →
      SerInv lenA lenB aErr
        (List.foldl (serStep lenA lenB aErr) s sched) := by
  intro sched
  induction sched with
  | nil => exact fun s hs => hs
  | cons c rest ih =>
      intro s hs
      exact ih _ (serStep_inv lenA lenB aErr s c hs)

theorem serStep0_eq (lenA lenB : Nat) (aErr : Bool) (s : SerState)
    (h : s.k < lenA) :
    serStep lenA lenB aErr s 0 =
      { s with k := s.k + 1, trace := s.trace ++ [SerEvent.aSeg s.k] } := by
  simp [serStep, h]

theorem serStep1_await_eq (lenA lenB : Nat) (aErr : Bool) (s : SerState)
    (hk : s.k = lenA) (hm : s.m = 0) :
    serStep lenA lenB aErr s 1 =
      { s with m := 1, trace := s.trace ++ [SerEvent.bAwait aErr] } := by
  simp [serStep, hk, hm]

theorem serStep1_seg_eq (lenA lenB : Nat) (aErr : Bool) (s : SerState)
    (hm1 : 1 ≤ s.m) (hm2 : s.m ≤ lenB) :
    serStep lenA lenB aErr s 1 =
      { s with m := s.m + 1, trace := s.trace ++ [SerEvent.bSeg (s.m - 1)] } := by
  have hcond : ¬(s.k = lenA ∧ s.m = 0) := by
    rintro ⟨_, hm0⟩
    omega
  simp [serStep, hcond, hm1, hm2]

theorem serStep2_eq (lenA lenB : Nat) (aErr : Bool) (s : SerState)
    (hk : s.k = lenA) (hA : s.hA = false) :
    serStep lenA lenB aErr s 2 =
      { s with hA := true, slot := false } := by
  simp [serStep, hk, hA]

theorem serStep3_eq (lenA lenB : Nat) (aErr : Bool) (s : SerState)
    (hm : s.m = lenB + 1) (hB : s.hB = false) :
    serStep lenA lenB aErr s 3 =
      { s with hB := true, slot := false } := by
  simp [serStep, hm, hB]

theorem serFold_replicate0 (lenA lenB : Nat) (aErr : Bool) :
    ∀ n (s : SerState), s.k + n ≤ lenA →
      (List.foldl (serStep lenA lenB aErr) s (List.replicate n 0)).k =
          s.k + n ∧
      (List.foldl (serStep lenA lenB aErr) s (List.replicate n 0)).m = s.m ∧
      (List.foldl (serStep lenA lenB aErr) s (List.replicate n 0)).hA =
          s.hA ∧
      (List.foldl (serStep lenA lenB aErr) s (List.replicate n 0)).hB =
          s.hB ∧
      (List.foldl (serStep lenA lenB aErr) s (List.replicate n 0)).slot =
          s.slot := by
  intro n
  induction n with
  | zero => exact fun s _ => ⟨rfl, rfl, rfl, rfl, rfl⟩
  | succ n ih =>
      intro s h
      rw [List.replicate_succ, List.foldl_cons,
        serStep0_eq lenA lenB aErr s (by omega)]
      obtain ⟨i1, i2, i3, i4, i5⟩ := ih
        { s with k := s.k + 1, trace := s.trace ++ [SerEvent.aSeg s.k] }
        (by dsimp only; omega)
      refine ⟨?_, i2, i3, i4, i5⟩
      rw [i1]
      dsimp only
      omega

theorem serFold_replicate1 (lenA lenB : Nat) (aErr : Bool) :
    ∀ n (s : SerState), 1 ≤ s.m → s.m + n ≤ lenB + 1 →
      (List.foldl (serStep lenA lenB aErr) s (List.replicate n 1)).k = s.k ∧
      (List.foldl (serStep lenA lenB aErr) s (List.replicate n 1)).m =
          s.m + n ∧
      (List.foldl (serStep lenA lenB aErr) s (List.replicate n 1)).hA =
          s.hA ∧
      (List.foldl (serStep lenA lenB aErr) s (List.replicate n 1)).hB =
          s.hB ∧
      (List.foldl (serStep lenA lenB aErr) s (List.replicate n 1)).slot =
          s.slot := by
  intro n
  induction n with
  | zero => exact fun s _ _ => ⟨rfl, rfl, rfl, rfl, rfl⟩
  | succ n ih =>
      intro s hm1 hmn
      rw [List.replicate_succ, List.foldl_cons,
        serStep1_seg_eq lenA lenB aErr s hm1 (by omega)]
      obtain ⟨i1, i2, i3, i4, i5⟩ := ih
        { s with m := s.m + 1, trace := s.trace ++ [SerEvent.bSeg (s.m - 1)] }
        (by dsimp only; omega) (by dsimp only; omega)
      refine ⟨i1, ?_, i3, i4, i5⟩
      rw [i2]
      dsimp only
      omega

theorem serRun_full (lenA lenB : Nat) (aErr : Bool) :
    (serRun lenA lenB aErr (serFullSched lenA lenB)).k = lenA ∧
    (serRun lenA lenB aErr (serFullSched lenA lenB)).m = lenB + 1 ∧
    (serRun lenA lenB aErr (serFullSched lenA lenB)).hA = true ∧
    (serRun lenA lenB aErr (serFullSched lenA lenB)).hB = true ∧
    (serRun lenA lenB aErr (serFullSched lenA lenB)).slot = false := by
  have hrun : serRun lenA lenB aErr (serFullSched lenA lenB) =
      List.foldl (serStep lenA lenB aErr)
        (List.foldl (serStep lenA lenB aErr)
          (List.foldl (serStep lenA lenB aErr)
            (List.foldl (serStep lenA lenB aErr) serInit
              (List.replicate lenA 0))
            [1])
          (List.replicate lenB 1))
        [2, 3] := by
    show List.foldl (serStep lenA lenB aErr) serInit
      (List.replicate lenA 0 ++ [1] ++ List.replicate lenB 1 ++ [2, 3]) = _
    rw [List.foldl_append, List.foldl_append, List.foldl_append]
  obtain ⟨a1, a2, a3, a4, a5⟩ := serFold_replicate0 lenA lenB aErr lenA
    serInit (by show 0 + lenA ≤ lenA; omega)
  rw [hrun]
  set F0 := List.foldl (serStep lenA lenB aErr) serInit
    (List.replicate lenA 0) with hF0
  have hk1 : F0.k = lenA := by
    rw [a1]
    show 0 + lenA = lenA
    omega
  have hm1 : F0.m = 0 := a2
  have hfold1 : List.foldl (serStep lenA lenB aErr) F0 [1] =
      { F0 with m := 1, trace := F0.trace ++ [SerEvent.bAwait aErr] } := by
    rw [List.foldl_cons, List.foldl_nil,
      serStep1_await_eq lenA lenB aErr F0 hk1 hm1]
  rw [hfold1]
  set S2 : SerState :=
    { F0 with m := 1, trace := F0.trace ++ [SerEvent.bAwait aErr] } with hS2
  obtain ⟨b1, b2, b3, b4, b5⟩ := serFold_replicate1 lenA lenB aErr lenB S2
    (by rw [hS2]) (by rw [hS2]; show 1 + lenB ≤ lenB + 1; omega)
  set F1 := List.foldl (serStep lenA lenB aErr) S2
    (List.replicate lenB 1) with hF1
  have hk3 : F1.k = lenA := by
    rw [b1, hS2]
    exact hk1
  have hm3 : F1.m = lenB + 1 := by
    rw [b2, hS2]
    show 1 + lenB = lenB + 1
    omega
  have hA3 : F1.hA = false := by
    rw [b3, hS2]
    show F0.hA = false
    rw [a3]
    rfl
  have hB3 : F1.hB = false := by
    rw [b4, hS2]
    show F0.hB = false
    rw [a4]
    rfl
  rw [List.foldl_cons, serStep2_eq lenA lenB aErr F1 hk3 hA3,
    List.foldl_cons, List.foldl_nil]
  rw [serStep3_eq lenA lenB aErr { F1 with hA := true, slot := false }
    (by show F1.m = lenB + 1; exact hm3) (by show F1.hB = false; exact hB3)]
  exact ⟨hk3, hm3, rfl, rfl, rfl⟩

/-- C9: in every schedule of the two chained per-chat operations, the
event trace is the canonical one — all of A's mutation segments, then B's
await of A's task, then B's segments — so B never starts mutating before
A's task finishes; B passes its await only when A's body is exhausted,
regardless of whether A failed (the failure is only logged, as the flag on
the await event); once A's submitting handler resumes the chat_tasks slot
is cleared; and the full schedule drives A and B both to completion (B is
not cancelled by A's failure) with the slot empty at the end. -/
theorem C9_serializer (lenA lenB : Nat) (aErr : Bool) :
    (∀ sched,
      (serRun lenA lenB aErr sched).trace =
        serCanonicalTrace aErr (serRun lenA lenB aErr sched).k
          (serRun lenA lenB aErr sched).m ∧
      (1 ≤ (serRun lenA lenB aErr sched).m →
        (serRun lenA lenB aErr sched).k = lenA) ∧
      ((serRun lenA lenB aErr sched).hA = true →
        (serRun lenA lenB aErr sched).slot = false)) ∧
    ((serRun lenA lenB aErr (serFullSched lenA lenB)).k = lenA ∧
     (serRun lenA lenB aErr (serFullSched lenA lenB)).m = lenB + 1 ∧
     (serRun lenA lenB aErr (serFullSched lenA lenB)).hA = true ∧
     (serRun lenA lenB aErr (serFullSched lenA lenB)).hB = true ∧
     (serRun lenA lenB aErr (serFullSched lenA lenB)).slot = false ∧
     (serRun lenA lenB aErr (serFullSched lenA lenB)).trace =
       serCanonicalTrace aErr lenA (lenB + 1)) := by
  constructor
  · intro sched
    obtain ⟨_, _, h3, h4, _, h6⟩ :=
      serFold_inv lenA lenB aErr sched serInit (serInit_inv lenA lenB aErr)
    exact ⟨h6, h3, fun hA => (h4 hA).2⟩
  · obtain ⟨hk, hm, hA, hB, hslot⟩ := serRun_full lenA lenB aErr
    obtain ⟨_, _, _, _, _, h6⟩ :=
      serFold_inv lenA lenB aErr (serFullSched lenA lenB) serInit
        (serInit_inv lenA lenB aErr)
    refine ⟨hk, hm, hA, hB, hslot, ?_⟩
    have h6' : (serRun lenA lenB aErr (serFullSched lenA lenB)).trace =
        serCanonicalTrace aErr
          (serRun lenA lenB aErr (serFullSched lenA lenB)).k
          (serRun lenA lenB aErr (serFullSched lenA lenB)).m := h6
    rw [h6', hk, hm]

/-- C9 witness: a concrete interleaved schedule for two operations of two
segments each, with A failing, produces the canonical serialized trace. -/
theorem C9_serializer_witness :
    (serRun 2 2 true [1, 0, 1, 0, 1]).trace =
      serCanonicalTrace true (serRun 2 2 true [1, 0, 1, 0, 1]).k
        (serRun 2 2 true [1, 0, 1, 0, 1]).m ∧
    (1 ≤ (serRun 2 2 true [1, 0, 1, 0, 1]).m →
      (serRun 2 2 true [1, 0, 1, 0, 1]).k = 2) ∧
    ((serRun 2 2 true [1, 0, 1, 0, 1]).hA = true →
      (serRun 2 2 true [1, 0, 1, 0, 1]).slot = false) :=
  (C9_serializer 2 2 true).1 [1, 0, 1, 0, 1]

end MrGpt
